import Mathlib

/-!
Shallow embedding of `logs_ingest/main.py` from dynatrace-azure-log-forwarder.

The module under verification is the per-batch record normalization pipeline.
External collaborators of `main.py` (the json module, dateutil timestamp
parsing, the mapping/filtering/metadata-engine modules, the dynatrace client
and the azure runtime) are modelled as fields of an `Env` structure; the
control flow of `main.py` itself is translated function by function, with the
mutable `SelfMonitoring` instance passed explicitly and Python exceptions
modelled with `Except`.
-/

namespace LogsIngest

/-- Minimal model of a Python JSON value (the values that `json.loads`
produces and that log records carry). -/
inductive JsonVal where
  | null
  | bool (b : Bool)
  | num (n : Int)
  | str (s : String)
  | arr (xs : List JsonVal)
  | obj (fields : List (String × JsonVal))

/-- Python dicts with string keys are modelled as association lists in
insertion order, with unique keys maintained by `aset`. -/
abbrev AList := List (String × JsonVal)

/-- Python `len()` on a `str` counts code points. -/
def pyLen (s : String) : Nat := s.data.length

/-- Python slicing `s[:n]` for a nonnegative `n`. -/
def pyTake (s : String) (n : Nat) : String := ⟨s.data.take n⟩

/-- Concatenation `a + b` of Python strings. -/
def pyConcat (a b : String) : String := ⟨a.data ++ b.data⟩

/-- Python truthiness of a JSON value: `None`, `False`, `0`, the empty
string, the empty list and the empty dict are falsy. -/
def truthy : JsonVal → Bool
  | .null => false
  | .bool b => b
  | .num n => n != 0
  | .str s => !s.data.isEmpty
  | .arr xs => !xs.isEmpty
  | .obj fs => !fs.isEmpty

/-- Does this entry of an association list carry key `k`? -/
def keyIs (k : String) (p : String × JsonVal) : Bool := p.1 == k

/-- Python `record.get(k)` / `k in record` combined: the value stored at key
`k`, if the key is present. -/
def aget (r : AList) (k : String) : Option JsonVal := (r.find? (keyIs k)).map Prod.snd

/-- Python `record[k] = v`: overwrite the value in place when the key exists
(dict insertion order is preserved), append a new entry otherwise. -/
def aset (r : AList) (k : String) (v : JsonVal) : AList :=
  if r.any (keyIs k) then r.map (fun p => if keyIs k p then (k, v) else p)
  else r ++ [(k, v)]

/-- Counters of `self_monitoring.SelfMonitoring` that `main.py` mutates.
Wall-clock fields (`execution_time`, `processing_time`) are not modelled. -/
structure SelfMonitoring where
  parsing_errors : Nat
  too_old_records : Nat
  too_long_content_size : List Nat

/-- Python exceptions, split exactly as the handlers of `main.py` split them:
`json.JSONDecodeError` versus any other exception. -/
inductive PyErr where
  | jsonDecode
  | other

/-- Result of `dateutil.parser.parse` on a timestamp string: failure, a naive
datetime (one without a timezone offset), or a timezone-aware datetime; the
two datetime forms are given as epoch seconds. -/
inductive TsParse where
  | fail
  | naive (epoch : Int)
  | aware (epoch : Int)

/-- Effects of one invocation that the claims observe: the network send and
the two self-monitoring flush calls of the finally block. -/
inductive Effect where
  | sendLogs (payload : List AList)
  | logSelfMonitoring
  | pushTimeSeries

/-- Environment of one invocation: configuration read from `os.environ` at
module load plus the external collaborators of `main.py`, each modelled as a
pure (possibly failing) function. -/
structure Env where
  /-- DYNATRACE_LOG_INGEST_MAX_RECORD_AGE, default 86400. -/
  record_age_limit : Int
  /-- DYNATRACE_LOG_INGEST_ATTRIBUTE_VALUE_MAX_LENGTH, default 250. -/
  attribute_value_length_limit : Nat
  /-- DYNATRACE_LOG_INGEST_CONTENT_MAX_LENGTH, default 8192. -/
  content_length_limit : Nat
  /-- RESOURCE_ID environment value, default the empty string. -/
  cloud_log_forwarder : String
  /-- Alias list `azure_properties_names` imported from the mapping module. -/
  azure_properties_names : List String
  /-- DYNATRACE_URL environment entry, `none` when unset. -/
  dynatrace_url : Option String
  /-- DYNATRACE_ACCESS_KEY environment entry, `none` when unset. -/
  dynatrace_access_key : Option String
  /-- SELF_MONITORING_ENABLED environment entry, `none` when unset. -/
  self_monitoring_setting : Option String
  /-- Current time `datetime.now(timezone.utc)` as epoch seconds. -/
  now : Int
  /-- Behaviour of `dateutil.parser.parse` on a timestamp string. -/
  parseTs : String → TsParse
  /-- Rendering of an enqueued time as `isoformat() + Z` after the
  microseconds and the tzinfo have been stripped. -/
  isoZ : Int → String
  /-- Behaviour of `bytes.decode` with encoding utf-8; a failure is a
  `UnicodeDecodeError`, which is not a `JSONDecodeError`. -/
  utf8Decode : List Nat → Except PyErr String
  /-- Behaviour of `json.loads`; `none` models a raised `JSONDecodeError`. -/
  jsonLoads : String → Option JsonVal
  /-- Behaviour of `json.dumps` on a JSON value. -/
  jsonDumps : JsonVal → String
  /-- Behaviour of Python `str()` on a non-string JSON value. -/
  pyStr : JsonVal → String
  /-- Collaborator `mapping.extract_severity record parsed`. -/
  extract_severity : AList → AList → Except PyErr AList
  /-- Collaborator `mapping.extract_resource_id_attributes parsed resource_id`. -/
  extract_resource_id_attributes : AList → JsonVal → Except PyErr AList
  /-- Collaborator `LogFilter.should_filter_out_record parsed`. -/
  should_filter_out_record : AList → Except PyErr Bool
  /-- Collaborator `MetadataEngine.apply record parsed`. -/
  metadata_apply : AList → AList → Except PyErr AList
  /-- Collaborator `infer_monitored_entity_id category parsed`. -/
  infer_monitored_entity_id : String → AList → Except PyErr AList
  /-- Collaborator `dynatrace_client.send_logs url key payload sm`; it may
  mutate the monitoring counters and it may raise. -/
  send_logs : String → String → List AList → SelfMonitoring →
      Except PyErr Unit × SelfMonitoring

/-- Literal appended to truncated content, `main.py` line 41. -/
def DYNATRACE_LOG_INGEST_CONTENT_MARK_TRIMMED : String := "[TRUNCATED]"

/-- One event of the batch: the enqueued time (epoch seconds, already
truncated to second precision) and the raw bytes of `event.get_body()`. -/
structure RawEvent where
  enqueued_time : Option Int
  body : List Nat

/-- Line 61 of `main.py`: the timestamp string handed to `is_too_old` for an
event, or `None` when the event carries no enqueued time. -/
def eventTs (env : Env) (ev : RawEvent) : Option JsonVal :=
  ev.enqueued_time.map (fun t => .str (env.isoZ t))

/-- Lines 101 to 114 of `main.py`. The subtraction
`datetime.now(timezone.utc) - date` raises a `TypeError` when `date` is
naive, and `parser.parse` raises when its argument is unparseable or not a
string; every such exception is caught by the `except` clause, which
increments `parsing_errors` and falls through to `return False`. The
`log_part` argument only feeds a log line. -/
def is_too_old (env : Env) (timestamp : Option JsonVal) (sm : SelfMonitoring)
    ( log_part : String) : Bool × SelfMonitoring :=
  match timestamp with
  | none => (false, sm)
  | some v =>
    if truthy v then
      match v with
      | .str s =>
        match env.parseTs s with
        | .aware t =>
          if env.now - t > env.record_age_limit - 60 then
            (true, { sm with too_old_records := sm.too_old_records + 1 })
          else (false, sm)
        | .naive _ => (false, { sm with parsing_errors := sm.parsing_errors + 1 })
        | .fail => (false, { sm with parsing_errors := sm.parsing_errors + 1 })
      | _ => (false, { sm with parsing_errors := sm.parsing_errors + 1 })
    else (false, sm)

/-- Lines 117 to 121 of `main.py`: find the first known properties alias
present in the record; when its value is a truthy string, parse it as JSON
and store the result under the key `properties`. A `json.loads` failure
propagates to the caller as a `JSONDecodeError`. -/
def deserialize_properties (env : Env) (record : AList) : Except PyErr AList :=
  let properties_name :=
    (env.azure_properties_names.find? (fun p => (aget record p).isSome)).getD ""
  match aget record properties_name with
  | none => .ok record
  | some v =>
    if truthy v then
      match v with
      | .str s =>
        match env.jsonLoads s with
        | some j => .ok (aset record "properties" j)
        | none => .error .jsonDecode
      | _ => .ok record
    else .ok record

/-- Lines 165 to 167 of `main.py`. -/
def extract_cloud_log_forwarder (env : Env) (parsed : AList) : AList :=
  if !env.cloud_log_forwarder.data.isEmpty then
    aset parsed "cloud.log_forwarder" (.str env.cloud_log_forwarder)
  else parsed

/-- Keys exempt from per-attribute truncation, line 147 of `main.py`. -/
def exemptKey (k : String) : Bool := k == "content" || k == "severity" || k == "timestamp"

/-- String rendering used on line 150 of `main.py`: keep a str as is,
apply `str()` otherwise. -/
def valToPyStr (env : Env) : JsonVal → String
  | .str s => s
  | v => env.pyStr v

/-- Lines 146 to 151 of `main.py` for one dict entry: a truthy value under a
non-exempt key is coerced to a string and cut to
`attribute_value_length_limit` characters. -/
def sanitize_attr_entry (env : Env) (p : String × JsonVal) : String × JsonVal :=
  if !exemptKey p.1 && truthy p.2 then
    (p.1, .str (pyTake (valToPyStr env p.2) env.attribute_value_length_limit))
  else p

/-- Lines 146 to 151 of `main.py`: the attribute loop only reassigns values
of existing keys, so it is a map over the entries. -/
def sanitize_attributes (env : Env) (r : AList) : AList :=
  r.map (sanitize_attr_entry env)

/-- Lines 157 to 161 of `main.py`: `r` holds the string `s` under the key
`content`; when `s` exceeds `content_length_limit`, record its length and
overwrite the content with its first `content_length_limit - 11` characters
followed by the truncation marker. -/
def content_trunc (env : Env) (r : AList) (s : String) (sm : SelfMonitoring) :
    AList × SelfMonitoring :=
  if pyLen s > env.content_length_limit then
    (aset r "content"
        (.str (pyConcat
          (pyTake s (env.content_length_limit -
            pyLen DYNATRACE_LOG_INGEST_CONTENT_MARK_TRIMMED))
          DYNATRACE_LOG_INGEST_CONTENT_MARK_TRIMMED)),
     { sm with too_long_content_size := sm.too_long_content_size ++ [pyLen s] })
  else (r, sm)

/-- Lines 153 to 161 of `main.py`: a truthy string content goes straight to
the truncation check; a truthy non-string content is first serialized with
`json.dumps` and written back, then checked. -/
def content_step (env : Env) (r : AList) (sm : SelfMonitoring) :
    AList × SelfMonitoring :=
  match aget r "content" with
  | none => (r, sm)
  | some c =>
    if truthy c then
      match c with
      | .str s => content_trunc env r s sm
      | _ =>
        content_trunc env (aset r "content" (.str (env.jsonDumps c)))
          (env.jsonDumps c) sm
    else (r, sm)

/-- Lines 146 to 162 of `main.py` as one unit: per-attribute truncation then
content serialization and truncation. -/
def sanitize_record (env : Env) (r : AList) (sm : SelfMonitoring) :
    AList × SelfMonitoring :=
  content_step env (sanitize_attributes env r) sm

/-- Python `.lower()` applied to the value of `record.get("category", "")`;
on a non-string value the attribute lookup raises, an exception that the
per-record handler later catches. -/
def pyLowerVal : JsonVal → Except PyErr String
  | .str s => .ok s.toLower
  | _ => .error .other

/-- Lines 125 to 136 of `main.py`: the part of `parse_record` that runs
before the drop filter is consulted. -/
def pre_filter_parsed (env : Env) (record : AList) : Except PyErr AList :=
  let parsed : AList := [("cloud.provider", JsonVal.str "Azure")]
  match env.extract_severity record parsed with
  | .error e => .error e
  | .ok parsed =>
    let parsed := extract_cloud_log_forwarder env parsed
    match aget record "resourceId" with
    | some rid => env.extract_resource_id_attributes parsed rid
    | none =>
      match aget record "_ResourceId" with
      | some rid => env.extract_resource_id_attributes parsed rid
      | none => .ok parsed

/-- Lines 124 to 162 of `main.py`: build the parsed record, return `none`
when the drop filter signals to filter it out, otherwise enrich and
sanitize. Only the sanitization of content touches the monitoring state. -/
def parse_record (env : Env) (record : AList) (sm : SelfMonitoring) :
    Except PyErr (Option AList × SelfMonitoring) :=
  match pre_filter_parsed env record with
  | .error e => .error e
  | .ok parsed =>
    match env.should_filter_out_record parsed with
    | .error e => .error e
    | .ok true => .ok (none, sm)
    | .ok false =>
      match env.metadata_apply record parsed with
      | .error e => .error e
      | .ok parsed =>
        match pyLowerVal ((aget record "category").getD (.str "")) with
        | .error e => .error e
        | .ok category =>
          match env.infer_monitored_entity_id category parsed with
          | .error e => .error e
          | .ok parsed =>
            let (parsed, sm) := sanitize_record env parsed sm
            .ok (some parsed, sm)

/-- Lines 91 to 98 of `main.py`: normalize the properties field, parse the
record, and unless it was filtered out or its own timestamp is too old,
append it to the payload. A falsy (empty) parsed dict is also skipped by the
`if parsed_record` test. -/
def process_record (env : Env) (payload : List AList) (record : AList)
    (sm : SelfMonitoring) : Except PyErr (List AList × SelfMonitoring) :=
  match deserialize_properties env record with
  | .error e => .error e
  | .ok record =>
    match parse_record env record sm with
    | .error e => .error e
    | .ok (none, sm) => .ok (payload, sm)
    | .ok (some parsed, sm) =>
      if parsed.isEmpty then .ok (payload, sm)
      else
        let (old, sm) := is_too_old env (aget parsed "timestamp") sm "record"
        if old then .ok (payload, sm)
        else .ok (payload ++ [parsed], sm)

/-- Entry of the records loop for one element of the decoded `records`
array: a non-dict element makes the first attribute access inside
`process_record` raise, before any counter is touched. -/
def process_record_val (env : Env) (payload : List AList) (rv : JsonVal)
    (sm : SelfMonitoring) : Except PyErr (List AList × SelfMonitoring) :=
  match rv with
  | .obj record => process_record env payload record sm
  | _ => .error .other

/-- Lines 66 to 75 of `main.py`: the per-record loop. Both `except` clauses
(`JSONDecodeError` and any other exception) increment `parsing_errors` by
one, log, and continue with the next record. -/
def process_records (env : Env) (records : List JsonVal) (payload : List AList)
    (sm : SelfMonitoring) : List AList × SelfMonitoring :=
  match records with
  | [] => (payload, sm)
  | r :: rest =>
    match process_record_val env payload r sm with
    | .ok (payload, sm) => process_records env rest payload sm
    | .error _ =>
      process_records env rest payload
        { sm with parsing_errors := sm.parsing_errors + 1 }

/-- Line 65 of `main.py`: `event_json.get("records", [])` followed by the
`for` loop. A non-dict body raises on the `.get` attribute access; a
`records` value that is not a list is approximated as failing at the `for`
(Python would iterate a str or a dict; no claim exercises that corner). -/
def getRecords : JsonVal → Except PyErr (List JsonVal)
  | .obj fields =>
    match aget fields "records" with
    | none => .ok []
    | some (.arr xs) => .ok xs
    | some _ => .error .other
  | _ => .error .other

/-- Lines 60 to 75 of `main.py`: the event loop. The body decode and the
body `json.loads` on lines 63 and 64 sit outside the per-record `try`, so
their exceptions abort the loop and escape to the handler of
`process_logs`. -/
def process_events (env : Env) (events : List RawEvent) (payload : List AList)
    (sm : SelfMonitoring) : Except PyErr (List AList) × SelfMonitoring :=
  match events with
  | [] => (.ok payload, sm)
  | ev :: rest =>
    let io := is_too_old env (eventTs env ev) sm "event"
    if io.1 then process_events env rest payload io.2
    else
      match env.utf8Decode ev.body with
      | .error e => (.error e, io.2)
      | .ok bodyStr =>
        match env.jsonLoads bodyStr with
        | none => (.error .jsonDecode, io.2)
        | some event_json =>
          match getRecords event_json with
          | .error e => (.error e, io.2)
          | .ok records =>
            let pr := process_records env records payload io.2
            process_events env rest pr.1 pr.2

/-- Line 85 of `main.py`: the SELF_MONITORING_ENABLED check. -/
def self_monitoring_enabled (env : Env) : Bool :=
  (["True", "true"] : List String).contains (env.self_monitoring_setting.getD "False")

/-- Lines 84 to 88 of `main.py`: the effects of the `finally` block, in
execution order. -/
def finalization_effects (env : Env) : List Effect :=
  Effect.logSelfMonitoring ::
    (if self_monitoring_enabled env then [Effect.pushTimeSeries] else [])

/-- Lines 53 to 80 of `main.py`: the body of the outer `try`. Checks the two
required configuration entries, runs the event loop, and sends a non-empty
payload. The result is the invocation outcome together with the final
monitoring state and the trace of observable effects; log lines and the
`log_call_count` reset feed the logging collaborator only and are not
modelled. -/
def process_logs_body (env : Env) (events : List RawEvent) (sm : SelfMonitoring) :
    Except PyErr Unit × SelfMonitoring × List Effect :=
  if env.dynatrace_url.isNone || env.dynatrace_access_key.isNone then
    (.error .other, sm, [])
  else
    match process_events env events [] sm with
    | (.error e, sm) => (.error e, sm, [])
    | (.ok payload, sm) =>
      if payload.isEmpty then (.ok (), sm, [])
      else
        let r := env.send_logs (env.dynatrace_url.getD "")
            (env.dynatrace_access_key.getD "") payload sm
        (r.1, r.2, [Effect.sendLogs payload])

/-- Lines 52 to 88 of `main.py`: the `try` body, the `except` clause that
logs and re-raises the same exception, and the `finally` block that always
flushes self-monitoring (and pushes the time series when enabled) before
control leaves the function. -/
def process_logs (env : Env) (events : List RawEvent) (sm : SelfMonitoring) :
    Except PyErr Unit × SelfMonitoring × List Effect :=
  let r := process_logs_body env events sm
  (r.1, r.2.1, r.2.2 ++ finalization_effects env)

/-- Initial monitoring state constructed on line 48 of `main.py`. -/
def sm0 : SelfMonitoring := { parsing_errors := 0, too_old_records := 0, too_long_content_size := [] }

/-- Lines 47 to 49 of `main.py`: the azure functions entry point. -/
def main (env : Env) (events : List RawEvent) :
    Except PyErr Unit × SelfMonitoring × List Effect :=
  process_logs env events sm0

/-- Counts the self-monitoring flush effects in a trace. -/
def countLogSM (tr : List Effect) : Nat :=
  tr.countP (fun e => match e with | .logSelfMonitoring => true | _ => false)

/-- Counts the time-series push effects in a trace. -/
def countPush (tr : List Effect) : Nat :=
  tr.countP (fun e => match e with | .pushTimeSeries => true | _ => false)

/-! Concrete environments used to evaluate the pipeline on closed inputs. -/

/-- Environment with the default configuration, benign collaborators, an
unparseable timestamp format and a `json.loads` that always fails. -/
def baseEnv : Env where
  record_age_limit := 86400
  attribute_value_length_limit := 250
  content_length_limit := 8192
  cloud_log_forwarder := ""
  azure_properties_names := ["properties", "EventProperties"]
  dynatrace_url := some "https://dt.example"
  dynatrace_access_key := some "key"
  self_monitoring_setting := some "False"
  now := 200000
  parseTs := fun _ => .fail
  isoZ := fun _ => "1970-01-01T00:00:00Z"
  utf8Decode := fun _ => .ok ""
  jsonLoads := fun _ => none
  jsonDumps := fun _ => "null"
  pyStr := fun _ => "obj"
  extract_severity := fun _ parsed => .ok parsed
  extract_resource_id_attributes := fun parsed _ => .ok parsed
  should_filter_out_record := fun _ => .ok false
  metadata_apply := fun _ parsed => .ok parsed
  infer_monitored_entity_id := fun _ parsed => .ok parsed
  send_logs := fun _ _ _ sm => (.ok (), sm)

/-- Variant whose timestamps all parse to the timezone-aware epoch 0. -/
def envAware : Env := { baseEnv with parseTs := fun _ => TsParse.aware 0 }

/-- Variant whose timestamps all parse to a naive datetime lying far in the
past. -/
def envNaive : Env := { baseEnv with parseTs := fun _ => TsParse.naive (-1000000000) }

/-- Variant whose drop filter filters every record out. -/
def envFilter : Env := { baseEnv with should_filter_out_record := fun _ => .ok true }

/-- Variant with a tiny content length limit, to exercise truncation on
short strings. -/
def envSmall : Env := { baseEnv with content_length_limit := 12 }

/-! Claim theorems. -/

/-- C3: for every timestamp T carried by a string that parses to a
timezone-aware time, if now - T exceeds record_age_limit - 60 then
`is_too_old` returns true and increments `too_old_records` by exactly one;
if T is null or now - T is at most record_age_limit - 60 it returns false
and leaves the monitoring state, in particular `too_old_records`,
unchanged. -/
theorem claim_C3_age_guard (env : Env) (sm : SelfMonitoring) (lp s : String)
    (t : Int) (hp : env.parseTs s = .aware t) (hs : s.data ≠ []) :
    is_too_old env none sm lp = (false, sm)
    ∧ (env.now - t > env.record_age_limit - 60 →
        is_too_old env (some (.str s)) sm lp
          = (true, { sm with too_old_records := sm.too_old_records + 1 }))
    ∧ (env.now - t ≤ env.record_age_limit - 60 →
        is_too_old env (some (.str s)) sm lp = (false, sm)) := by
  have he : s.data.isEmpty = false := by simpa [List.isEmpty_iff] using hs
  refine ⟨rfl, fun h => ?_, fun h => ?_⟩
  · simp [is_too_old, truthy, he, hp, h]
  · simp [is_too_old, truthy, he, hp, not_lt.mpr h]

/-- Witness for C3 on a concrete environment whose clock is far past the
parsed timestamp. -/
theorem claim_C3_age_guard_witness :
    is_too_old envAware none sm0 "event" = (false, sm0)
    ∧ (envAware.now - 0 > envAware.record_age_limit - 60 →
        is_too_old envAware (some (.str "ts")) sm0 "event"
          = (true, { sm0 with too_old_records := sm0.too_old_records + 1 }))
    ∧ (envAware.now - 0 ≤ envAware.record_age_limit - 60 →
        is_too_old envAware (some (.str "ts")) sm0 "event" = (false, sm0)) :=
  claim_C3_age_guard envAware sm0 "event" "ts" 0 rfl (by decide)

/-- C4: for every timestamp string that fails to parse, `is_too_old` returns
false (the item is kept) and increments `parsing_errors` by exactly one,
leaving `too_old_records` unchanged. -/
theorem claim_C4_unparseable_timestamp (env : Env) (sm : SelfMonitoring)
    (lp s : String) (hp : env.parseTs s = .fail) (hs : s.data ≠ []) :
    is_too_old env (some (.str s)) sm lp
      = (false, { sm with parsing_errors := sm.parsing_errors + 1 }) := by
  have he : s.data.isEmpty = false := by simpa [List.isEmpty_iff] using hs
  simp [is_too_old, truthy, he, hp]

/-- Witness for C4 on the base environment, whose timestamp format never
parses. -/
theorem claim_C4_unparseable_timestamp_witness :
    is_too_old baseEnv (some (.str "not a time")) sm0 "record"
      = (false, { sm0 with parsing_errors := sm0.parsing_errors + 1 }) :=
  claim_C4_unparseable_timestamp baseEnv sm0 "record" "not a time" rfl (by decide)

/-- C10: a timestamp string that parses to a naive datetime (no timezone
offset) is treated exactly like an unparseable one: the aware-minus-naive
subtraction raises inside the guarded block, `parsing_errors` is
incremented by one and the function returns false, however far in the past
the parsed time lies. -/
theorem claim_C10_naive_timestamp (env : Env) (sm : SelfMonitoring)
    (lp s : String) (t : Int) (hp : env.parseTs s = .naive t) (hs : s.data ≠ []) :
    is_too_old env (some (.str s)) sm lp
      = (false, { sm with parsing_errors := sm.parsing_errors + 1 }) := by
  have he : s.data.isEmpty = false := by simpa [List.isEmpty_iff] using hs
  simp [is_too_old, truthy, he, hp]

/-- Witness for C10 on an environment whose timestamps parse to a naive
datetime one billion seconds in the past. -/
theorem claim_C10_naive_timestamp_witness :
    is_too_old envNaive (some (.str "2001-09-09T01:46:40")) sm0 "record"
      = (false, { sm0 with parsing_errors := sm0.parsing_errors + 1 }) :=
  claim_C10_naive_timestamp envNaive sm0 "record" "2001-09-09T01:46:40"
    (-1000000000) rfl (by decide)

/-- C5: string content of length at most `content_length_limit` passes the
content step unchanged; string content of length L exceeding the limit
becomes exactly the first `content_length_limit - 11` characters followed by
the literal `[TRUNCATED]`, and L is appended to `too_long_content_size`.
The hypothesis on the limit keeps the slice index nonnegative, the regime in
which the embedding matches Python slicing. -/
theorem claim_C5_content_roundtrip (env : Env) (r : AList) (sm : SelfMonitoring)
    (s : String)
    (h11 : pyLen DYNATRACE_LOG_INGEST_CONTENT_MARK_TRIMMED ≤ env.content_length_limit)
    (hc : aget r "content" = some (.str s)) :
    (pyLen s ≤ env.content_length_limit → content_step env r sm = (r, sm))
    ∧ (pyLen s > env.content_length_limit →
        content_step env r sm
          = (aset r "content"
              (.str (pyConcat
                (pyTake s (env.content_length_limit -
                  pyLen DYNATRACE_LOG_INGEST_CONTENT_MARK_TRIMMED))
                DYNATRACE_LOG_INGEST_CONTENT_MARK_TRIMMED)),
             { sm with
                too_long_content_size := sm.too_long_content_size ++ [pyLen s] })) := by
  constructor
  · intro hle
    by_cases he : s.data.isEmpty
    · simp [content_step, hc, truthy, he]
    · simp [content_step, content_trunc, hc, truthy, he, not_lt.mpr hle]
  · intro hgt
    have hne : s.data ≠ [] :=
      List.length_pos.mp (lt_of_le_of_lt (Nat.zero_le _) hgt)
    have he : s.data.isEmpty = false := by simpa [List.isEmpty_iff] using hne
    simp [content_step, content_trunc, hc, truthy, he, hgt]

/-- Witness for C5: content of length 5 is untouched at limit 12, content of
length 13 is cut to one character plus the marker and its length 13 is
recorded. -/
theorem claim_C5_content_roundtrip_witness :
    (pyLen "hello" ≤ envSmall.content_length_limit →
      content_step envSmall [("content", JsonVal.str "hello")] sm0
        = ([("content", JsonVal.str "hello")], sm0))
    ∧ (pyLen "hello" > envSmall.content_length_limit →
        content_step envSmall [("content", JsonVal.str "hello")] sm0
          = (aset [("content", JsonVal.str "hello")] "content"
              (.str (pyConcat
                (pyTake "hello" (envSmall.content_length_limit -
                  pyLen DYNATRACE_LOG_INGEST_CONTENT_MARK_TRIMMED))
                DYNATRACE_LOG_INGEST_CONTENT_MARK_TRIMMED)),
             { sm0 with
                too_long_content_size := sm0.too_long_content_size ++ [pyLen "hello"] })) :=
  claim_C5_content_roundtrip envSmall [("content", JsonVal.str "hello")] sm0
    "hello" (by decide) rfl

/-- C7: a record that the drop filter signals to filter out makes
`parse_record` return the drop signal at once, with the monitoring state
untouched (no error counter, no `too_long_content_size` entry), and
`process_record` leaves the payload unchanged, so the record never reaches
the output batch. -/
theorem claim_C7_drop_filter (env : Env) (record0 record parsed : AList)
    (payload : List AList) (sm : SelfMonitoring)
    (hd : deserialize_properties env record0 = .ok record)
    (hp : pre_filter_parsed env record = .ok parsed)
    (hf : env.should_filter_out_record parsed = .ok true) :
    parse_record env record sm = .ok (none, sm)
    ∧ process_record env payload record0 sm = .ok (payload, sm) := by
  have h1 : parse_record env record sm = .ok (none, sm) := by
    simp [parse_record, hp, hf]
  exact ⟨h1, by simp [process_record, hd, h1]⟩

/-- Witness for C7 on an environment whose filter drops everything, applied
to the empty raw record. -/
theorem claim_C7_drop_filter_witness :
    parse_record envFilter [] sm0 = .ok (none, sm0)
    ∧ process_record envFilter [([] : AList)] [] sm0 = .ok ([([] : AList)], sm0) := by
  exact claim_C7_drop_filter envFilter [] [] [("cloud.provider", JsonVal.str "Azure")]
    [([] : AList)] sm0 rfl rfl rfl

/-- The per-record loop processes an appended batch by processing the first
part and continuing with the reached state. -/
theorem process_records_append (env : Env) (xs ys : List JsonVal)
    (payload : List AList) (sm : SelfMonitoring) :
    process_records env (xs ++ ys) payload sm
      = process_records env ys (process_records env xs payload sm).1
          (process_records env xs payload sm).2 := by
  induction xs generalizing payload sm with
  | nil => simp [process_records]
  | cons r rest ih =>
    simp only [List.cons_append, process_records]
    cases h : process_record_val env payload r sm with
    | ok v =>
      obtain ⟨p, s⟩ := v
      simpa using ih p s
    | error e => simpa using ih payload _

/-- One call of `process_record` can only append to the payload. -/
theorem process_record_val_payload_mono (env : Env) (payload : List AList)
    (rv : JsonVal) (sm : SelfMonitoring) (p : List AList) (s : SelfMonitoring)
    (h : process_record_val env payload rv sm = .ok (p, s)) :
    ∃ tail, p = payload ++ tail := by
  cases rv <;> simp only [process_record_val] at h <;> try exact absurd h (by simp)
  case obj record =>
    rw [process_record] at h
    split at h
    · exact absurd h (by simp)
    · split at h
      · exact absurd h (by simp)
      · obtain ⟨h1, -⟩ := by simpa using h
        exact ⟨[], by simp [← h1]⟩
      · rename_i parsed sm2 heq
        split at h
        · obtain ⟨h1, -⟩ := by simpa using h
          exact ⟨[], by simp [← h1]⟩
        · rcases hio : is_too_old env (aget parsed "timestamp") sm2 "record"
            with ⟨old, sm3⟩
          rw [hio] at h
          cases old
          · obtain ⟨h1, -⟩ := by simpa using h
            exact ⟨_, h1.symm⟩
          · obtain ⟨h1, -⟩ := by simpa using h
            exact ⟨[], by simp [← h1]⟩

/-- The per-record loop only appends to the payload it is given. -/
theorem process_records_payload_mono (env : Env) (records : List JsonVal)
    (payload : List AList) (sm : SelfMonitoring) :
    ∃ tail, (process_records env records payload sm).1 = payload ++ tail := by
  induction records generalizing payload sm with
  | nil => exact ⟨[], by simp [process_records]⟩
  | cons r rest ih =>
    simp only [process_records]
    cases h : process_record_val env payload r sm with
    | ok v =>
      obtain ⟨p, s⟩ := v
      obtain ⟨t1, ht1⟩ := process_record_val_payload_mono env payload r sm p s h
      obtain ⟨t2, ht2⟩ := ih p s
      refine ⟨t1 ++ t2, ?_⟩
      show (process_records env rest p s).1 = payload ++ (t1 ++ t2)
      rw [ht2, ht1, List.append_assoc]
    | error e => simpa using ih payload _

/-- C1: a record whose processing raises (a JSON decode failure during
property normalization or any other exception) is skipped with
`parsing_errors` incremented by exactly one, and the loop continues with the
remaining records from that state, so the rest of the batch is processed
unchanged and in arrival order; moreover the records already in the payload
stay in place, only followed by new ones. -/
theorem claim_C1_record_fault_isolation (env : Env) (xs : List JsonVal)
    (bad : JsonVal) (ys : List JsonVal) (payload : List AList)
    (sm : SelfMonitoring) (e : PyErr)
    (h : process_record_val env (process_records env xs payload sm).1 bad
          (process_records env xs payload sm).2 = .error e) :
    process_records env (xs ++ bad :: ys) payload sm
      = process_records env ys (process_records env xs payload sm).1
          { (process_records env xs payload sm).2 with
             parsing_errors :=
               (process_records env xs payload sm).2.parsing_errors + 1 }
    ∧ ∃ tail, (process_records env (xs ++ bad :: ys) payload sm).1
        = (process_records env xs payload sm).1 ++ tail := by
  have h1 : process_records env (xs ++ bad :: ys) payload sm
      = process_records env ys (process_records env xs payload sm).1
          { (process_records env xs payload sm).2 with
             parsing_errors :=
               (process_records env xs payload sm).2.parsing_errors + 1 } := by
    rw [process_records_append]
    simp only [process_records, h]
  refine ⟨h1, ?_⟩
  rw [h1]
  exact process_records_payload_mono env ys _ _

/-- Witness for C1: a batch whose first record is a bare string (every
attribute access on it raises) followed by an empty dict record; the bad
record only bumps `parsing_errors`. -/
theorem claim_C1_record_fault_isolation_witness :
    (process_records baseEnv ([] ++ JsonVal.str "oops" :: [JsonVal.obj []]) [] sm0
      = process_records baseEnv [JsonVal.obj []] (process_records baseEnv [] [] sm0).1
          { (process_records baseEnv [] [] sm0).2 with
             parsing_errors :=
               (process_records baseEnv [] [] sm0).2.parsing_errors + 1 }
      ∧ ∃ tail, (process_records baseEnv ([] ++ JsonVal.str "oops" :: [JsonVal.obj []]) [] sm0).1
          = (process_records baseEnv [] [] sm0).1 ++ tail) :=
  claim_C1_record_fault_isolation baseEnv [] (JsonVal.str "oops") [JsonVal.obj []]
    [] sm0 .other rfl

/-- When `is_too_old` answers true, the only state change is one increment
of `too_old_records`. -/
theorem is_too_old_true (env : Env) (ts : Option JsonVal) (sm : SelfMonitoring)
    (lp : String) (h : (is_too_old env ts sm lp).1 = true) :
    is_too_old env ts sm lp
      = (true, { sm with too_old_records := sm.too_old_records + 1 }) := by
  rcases ts with _ | v
  · simp [is_too_old] at h
  rcases v with _ | b | n | s | xs | fs
  case str =>
    by_cases htr : truthy (JsonVal.str s)
    · simp only [is_too_old, htr, if_true] at h ⊢
      cases hp : env.parseTs s
      · rw [hp] at h; simp at h
      · rw [hp] at h; simp at h
      · rename_i t
        rw [hp] at h
        by_cases hgt : env.now - t > env.record_age_limit - 60
        · simp [hgt]
        · simp [hgt] at h
    · simp [is_too_old, htr] at h
  case null => simp [is_too_old, truthy] at h
  case bool => cases b <;> simp [is_too_old, truthy] at h
  case num => by_cases hn : n = 0 <;> simp [is_too_old, truthy, hn] at h
  case arr => by_cases hx : xs.isEmpty <;> simp [is_too_old, truthy, hx] at h
  case obj => by_cases hx : fs.isEmpty <;> simp [is_too_old, truthy, hx] at h

/-- C8: an event whose own enqueue timestamp is judged too old contributes
zero records and its body is never decoded: the batch result does not
depend on the body bytes at all, so in particular a malformed body raises
nothing, and the only monitoring change is the `too_old_records` increment
(no `parsing_errors`). -/
theorem claim_C8_stale_event_never_decoded (env : Env) (t : Int)
    (body : List Nat) (rest : List RawEvent) (payload : List AList)
    (sm : SelfMonitoring)
    (h : (is_too_old env (some (.str (env.isoZ t))) sm "event").1 = true) :
    process_events env (⟨some t, body⟩ :: rest) payload sm
      = process_events env rest payload
          { sm with too_old_records := sm.too_old_records + 1 } := by
  have h2 := is_too_old_true env (some (.str (env.isoZ t))) sm "event" h
  simp only [process_events, eventTs, Option.map_some']
  rw [h2]
  simp

/-- Witness for C8: a stale event carrying unparseable body bytes is skipped
with only the stale counter moving. -/
theorem claim_C8_stale_event_never_decoded_witness :
    process_events envAware [⟨some 0, [255]⟩] [] sm0
      = process_events envAware [] []
          { sm0 with too_old_records := sm0.too_old_records + 1 } :=
  claim_C8_stale_event_never_decoded envAware 0 [255] [] [] sm0 (by decide)

/-- Counterexample to C2 as stated: on an environment where the body fails
to parse as JSON, a single fresh event makes the whole invocation fail with
the decode error and `parsing_errors` stays 0; the failure is not isolated
to the event and processing does not continue. -/
theorem claim_C2_counterexample :
    (process_logs baseEnv [⟨none, []⟩] sm0).1 = .error .jsonDecode
    ∧ (process_logs baseEnv [⟨none, []⟩] sm0).2.1.parsing_errors = 0 :=
  ⟨rfl, rfl⟩

/-- C2 as amended: a properties-string decode failure is isolated per record
(see C1), but an event whose body is not valid UTF-8 JSON is not isolated:
the event-level `json.loads` sits outside the per-record fault boundary, so
for a non-stale event the exception aborts the event loop, `parsing_errors`
is not incremented and the remaining events are not processed. -/
theorem claim_C2_amended_event_decode_escapes (env : Env) (tsv : Option Int)
    (body : List Nat) (rest : List RawEvent) (payload : List AList)
    (sm sm₁ : SelfMonitoring) (bodyStr : String)
    (hage : is_too_old env (eventTs env ⟨tsv, body⟩) sm "event" = (false, sm₁))
    (hdec : env.utf8Decode body = .ok bodyStr)
    (hjson : env.jsonLoads bodyStr = none) :
    process_events env (⟨tsv, body⟩ :: rest) payload sm
      = (.error .jsonDecode, sm₁) := by
  simp only [process_events]
  rw [hage]
  simp [hdec, hjson]

/-- Witness for C2 as amended: one fresh event with an undecodable body
aborts the loop with the decode error and an unchanged monitoring state. -/
theorem claim_C2_amended_event_decode_escapes_witness :
    process_events baseEnv [⟨none, []⟩] [] sm0 = (.error .jsonDecode, sm0) :=
  claim_C2_amended_event_decode_escapes baseEnv none [] [] [] sm0 sm0 "" rfl rfl rfl

/-- The trace of the outer try body contains no finalization effect. -/
theorem process_logs_body_trace (env : Env) (events : List RawEvent)
    (sm : SelfMonitoring) :
    countLogSM (process_logs_body env events sm).2.2 = 0
    ∧ countPush (process_logs_body env events sm).2.2 = 0 := by
  unfold process_logs_body
  split
  · simp [countLogSM, countPush]
  · split
    · simp [countLogSM, countPush]
    · split
      · simp [countLogSM, countPush]
      · simp [countLogSM, countPush]

/-- C9: on every exit path of the invocation (normal completion, the
missing-configuration error, a processing exception or a send exception)
the finalization effects run exactly once: the trace always ends with one
self-monitoring flush, followed by one time-series push exactly when the
enable flag is set, and neither effect occurs earlier; any exception is
surfaced in the result only together with that completed trace. -/
theorem claim_C9_finalization_always_once (env : Env) (events : List RawEvent)
    (sm : SelfMonitoring) :
    countLogSM (process_logs env events sm).2.2 = 1
    ∧ countPush (process_logs env events sm).2.2
        = (if self_monitoring_enabled env then 1 else 0)
    ∧ ∃ pre, (process_logs env events sm).2.2 = pre ++ finalization_effects env
        ∧ countLogSM pre = 0 ∧ countPush pre = 0 := by
  have hb := process_logs_body_trace env events sm
  refine ⟨?_, ?_, ⟨(process_logs_body env events sm).2.2, rfl, hb.1, hb.2⟩⟩
  · simp only [process_logs, countLogSM, List.countP_append, finalization_effects]
    rw [show List.countP _ (process_logs_body env events sm).2.2 = 0 from hb.1]
    split <;> simp [List.countP_cons]
  · simp only [process_logs, countPush, List.countP_append, finalization_effects]
    rw [show List.countP _ (process_logs_body env events sm).2.2 = 0 from hb.2]
    split <;> simp [List.countP_cons]

/-- A map by a function that fixes every element of a list is the
identity. -/
theorem map_fixpoints {α : Type} (f : α → α) (l : List α)
    (h : ∀ p ∈ l, f p = p) : l.map f = l :=
  (List.map_congr_left h).trans (List.map_id l)

/-- One attribute-sanitization step is idempotent on a single entry. -/
theorem sanitize_attr_entry_idem (env : Env) (p : String × JsonVal) :
    sanitize_attr_entry env (sanitize_attr_entry env p)
      = sanitize_attr_entry env p := by
  obtain ⟨k, v⟩ := p
  by_cases hk : exemptKey k
  · simp [sanitize_attr_entry, hk]
  · by_cases hv : truthy v
    · have h1 : sanitize_attr_entry env (k, v)
          = (k, .str (pyTake (valToPyStr env v) env.attribute_value_length_limit)) := by
        simp [sanitize_attr_entry, hk, hv]
      rw [h1]
      by_cases hw :
          (pyTake (valToPyStr env v) env.attribute_value_length_limit).data.isEmpty
      · have htw : truthy (JsonVal.str
            (pyTake (valToPyStr env v) env.attribute_value_length_limit)) = false := by
          simp [truthy, hw]
        simp [sanitize_attr_entry, htw]
      · have htw : truthy (JsonVal.str
            (pyTake (valToPyStr env v) env.attribute_value_length_limit)) = true := by
          simp [truthy]
          simpa using hw
        have htt : pyTake (pyTake (valToPyStr env v) env.attribute_value_length_limit)
            env.attribute_value_length_limit
            = pyTake (valToPyStr env v) env.attribute_value_length_limit := by
          simp [pyTake, List.take_take]
        have hval : valToPyStr env (JsonVal.str
            (pyTake (valToPyStr env v) env.attribute_value_length_limit))
            = pyTake (valToPyStr env v) env.attribute_value_length_limit := rfl
        simp [sanitize_attr_entry, hk, htw, hval, htt]
    · simp [sanitize_attr_entry, hk, hv]

/-- Every entry of an attribute-sanitized record is a fixpoint of the
entry sanitizer. -/
theorem mem_sanitize_attributes_fix (env : Env) (r : AList) :
    ∀ p ∈ sanitize_attributes env r, sanitize_attr_entry env p = p := by
  intro p hp
  obtain ⟨q, -, rfl⟩ := List.mem_map.mp hp
  exact sanitize_attr_entry_idem env q

/-- The entry sanitizer fixes the content entry, so writing a content value
preserves entry-wise fixedness. -/
theorem mem_aset_content_fix (env : Env) (y : AList) (v : JsonVal)
    (hfix : ∀ p ∈ y, sanitize_attr_entry env p = p) :
    ∀ p ∈ aset y "content" v, sanitize_attr_entry env p = p := by
  have hcontent : sanitize_attr_entry env ("content", v) = ("content", v) := by
    simp [sanitize_attr_entry, exemptKey]
  intro p hp
  unfold aset at hp
  split at hp
  · obtain ⟨q, hq, rfl⟩ := List.mem_map.mp hp
    by_cases hkq : keyIs "content" q
    · simp only [hkq, if_true]
      exact hcontent
    · simp only [hkq, Bool.false_eq_true, if_false]
      exact hfix q hq
  · rcases List.mem_append.mp hp with h | h
    · exact hfix p h
    · obtain rfl := by simpa using h
      exact hcontent

/-- Looking up the key just written by `aset` returns the written value:
the replacing map case. -/
theorem find?_map_replace (k : String) (v : JsonVal) (r : AList)
    (ha : r.any (keyIs k) = true) :
    (r.map (fun p => if keyIs k p then (k, v) else p)).find? (keyIs k)
      = some (k, v) := by
  induction r with
  | nil => simp at ha
  | cons q t ih =>
    rw [List.map_cons]
    by_cases hq : keyIs k q
    · rw [if_pos hq, List.find?_cons_of_pos _ (by simp [keyIs])]
    · rw [if_neg hq, List.find?_cons_of_neg _ hq]
      exact ih (by simpa [List.any_cons, hq] using ha)

/-- Looking up the key just written by `aset` returns the written value:
the appending case. -/
theorem find?_append_missing (k : String) (v : JsonVal) (r : AList)
    (ha : r.any (keyIs k) = false) :
    (r ++ [(k, v)]).find? (keyIs k) = some (k, v) := by
  induction r with
  | nil => simp [List.find?, keyIs]
  | cons q t ih =>
    rw [List.any_cons, Bool.or_eq_false_iff] at ha
    simpa [List.find?, ha.1] using ih ha.2

/-- Reading back the key just written by `aset`. -/
theorem aget_aset_self (r : AList) (k : String) (v : JsonVal) :
    aget (aset r k v) k = some v := by
  unfold aget aset
  by_cases ha : r.any (keyIs k)
  · simp [ha, find?_map_replace k v r ha]
  · rw [Bool.not_eq_true] at ha
    simp [ha, find?_append_missing k v r ha]

/-- Length of the literal truncation marker. -/
theorem pyLen_mark : pyLen DYNATRACE_LOG_INGEST_CONTENT_MARK_TRIMMED = 11 := by
  decide

/-- After the truncation check, the record holds a string content of length
at most the limit (the truncated string has length exactly the limit). -/
theorem content_trunc_out (env : Env)
    (h11 : pyLen DYNATRACE_LOG_INGEST_CONTENT_MARK_TRIMMED ≤ env.content_length_limit)
    (r : AList) (s : String) (sm : SelfMonitoring)
    (hg : aget r "content" = some (.str s)) :
    ∃ w, aget (content_trunc env r s sm).1 "content" = some (.str w)
      ∧ pyLen w ≤ env.content_length_limit := by
  unfold content_trunc
  by_cases hlen : pyLen s > env.content_length_limit
  · refine ⟨pyConcat
        (pyTake s (env.content_length_limit -
          pyLen DYNATRACE_LOG_INGEST_CONTENT_MARK_TRIMMED))
        DYNATRACE_LOG_INGEST_CONTENT_MARK_TRIMMED,
      by simp [hlen, aget_aset_self], ?_⟩
    rw [pyLen_mark] at h11 ⊢
    simp only [pyLen, pyConcat, pyTake, List.length_append, List.length_take]
    have hm : ("[TRUNCATED]" : String).data.length = 11 := by decide
    rw [show DYNATRACE_LOG_INGEST_CONTENT_MARK_TRIMMED = ("[TRUNCATED]" : String)
      from rfl, hm]
    omega
  · exact ⟨s, by simp [hlen, hg], not_lt.mp hlen⟩

/-- Content of length within the limit passes the content step unchanged. -/
theorem content_step_short (env : Env) (y : AList) (sm : SelfMonitoring)
    (w : String) (hc : aget y "content" = some (.str w))
    (hw : pyLen w ≤ env.content_length_limit) :
    content_step env y sm = (y, sm) := by
  by_cases he : w.data.isEmpty
  · simp [content_step, hc, truthy, he]
  · simp [content_step, content_trunc, hc, truthy, he, not_lt.mpr hw]

/-- The record produced by the content step either is the unchanged input
with absent or falsy content, or carries a string content of length at most
the limit. -/
theorem content_step_out (env : Env)
    (h11 : pyLen DYNATRACE_LOG_INGEST_CONTENT_MARK_TRIMMED ≤ env.content_length_limit)
    (y : AList) (sm : SelfMonitoring) :
    ((content_step env y sm).1 = y
      ∧ (aget y "content" = none
        ∨ ∃ c, aget y "content" = some c ∧ truthy c = false))
    ∨ ∃ w, aget (content_step env y sm).1 "content" = some (.str w)
        ∧ pyLen w ≤ env.content_length_limit := by
  cases hc : aget y "content" with
  | none => exact Or.inl ⟨by simp [content_step, hc], Or.inl rfl⟩
  | some c =>
    by_cases htr : truthy c
    · right
      cases c with
      | str s =>
        have hred : content_step env y sm = content_trunc env y s sm := by
          simp [content_step, hc, htr]
        rw [hred]
        exact content_trunc_out env h11 y s sm hc
      | null =>
        have hred : content_step env y sm
            = content_trunc env (aset y "content" (.str (env.jsonDumps .null)))
                (env.jsonDumps .null) sm := by
          simp [content_step, hc, htr]
        rw [hred]
        exact content_trunc_out env h11 _ _ sm (aget_aset_self _ _ _)
      | bool b =>
        have hred : content_step env y sm
            = content_trunc env (aset y "content" (.str (env.jsonDumps (.bool b))))
                (env.jsonDumps (.bool b)) sm := by
          simp [content_step, hc, htr]
        rw [hred]
        exact content_trunc_out env h11 _ _ sm (aget_aset_self _ _ _)
      | num n =>
        have hred : content_step env y sm
            = content_trunc env (aset y "content" (.str (env.jsonDumps (.num n))))
                (env.jsonDumps (.num n)) sm := by
          simp [content_step, hc, htr]
        rw [hred]
        exact content_trunc_out env h11 _ _ sm (aget_aset_self _ _ _)
      | arr xs =>
        have hred : content_step env y sm
            = content_trunc env (aset y "content" (.str (env.jsonDumps (.arr xs))))
                (env.jsonDumps (.arr xs)) sm := by
          simp [content_step, hc, htr]
        rw [hred]
        exact content_trunc_out env h11 _ _ sm (aget_aset_self _ _ _)
      | obj fs =>
        have hred : content_step env y sm
            = content_trunc env (aset y "content" (.str (env.jsonDumps (.obj fs))))
                (env.jsonDumps (.obj fs)) sm := by
          simp [content_step, hc, htr]
        rw [hred]
        exact content_trunc_out env h11 _ _ sm (aget_aset_self _ _ _)
    · exact Or.inl ⟨by simp [content_step, hc, htr], Or.inr ⟨c, rfl, by simpa using htr⟩⟩

/-- A second content step on the output of a content step changes
nothing. -/
theorem content_step_stable (env : Env)
    (h11 : pyLen DYNATRACE_LOG_INGEST_CONTENT_MARK_TRIMMED ≤ env.content_length_limit)
    (y : AList) (sm sm₂ : SelfMonitoring) :
    content_step env (content_step env y sm).1 sm₂
      = ((content_step env y sm).1, sm₂) := by
  rcases content_step_out env h11 y sm with ⟨he, hd⟩ | ⟨w, hw, hle⟩
  · rw [he]
    rcases hd with hn | ⟨c, hcv, htr⟩
    · simp [content_step, hn]
    · simp [content_step, hcv, htr]
  · exact content_step_short env _ sm₂ w hw hle

/-- Every entry of the output of the content step is a fixpoint of the
entry sanitizer, provided every entry of the input is. -/
theorem content_step_entries_fix (env : Env) (y : AList) (sm : SelfMonitoring)
    (hfix : ∀ p ∈ y, sanitize_attr_entry env p = p) :
    ∀ p ∈ (content_step env y sm).1, sanitize_attr_entry env p = p := by
  cases hc : aget y "content" with
  | none => simpa [content_step, hc] using hfix
  | some c =>
    by_cases htr : truthy c
    · cases c with
      | str s =>
        have hred : content_step env y sm = content_trunc env y s sm := by
          simp [content_step, hc, htr]
        rw [hred]
        unfold content_trunc
        split
        · exact mem_aset_content_fix env y _ hfix
        · exact hfix
      | null =>
        have hred : content_step env y sm
            = content_trunc env (aset y "content" (.str (env.jsonDumps .null)))
                (env.jsonDumps .null) sm := by
          simp [content_step, hc, htr]
        rw [hred]
        unfold content_trunc
        split
        · exact mem_aset_content_fix env _ _ (mem_aset_content_fix env y _ hfix)
        · exact mem_aset_content_fix env y _ hfix
      | bool b =>
        have hred : content_step env y sm
            = content_trunc env (aset y "content" (.str (env.jsonDumps (.bool b))))
                (env.jsonDumps (.bool b)) sm := by
          simp [content_step, hc, htr]
        rw [hred]
        unfold content_trunc
        split
        · exact mem_aset_content_fix env _ _ (mem_aset_content_fix env y _ hfix)
        · exact mem_aset_content_fix env y _ hfix
      | num n =>
        have hred : content_step env y sm
            = content_trunc env (aset y "content" (.str (env.jsonDumps (.num n))))
                (env.jsonDumps (.num n)) sm := by
          simp [content_step, hc, htr]
        rw [hred]
        unfold content_trunc
        split
        · exact mem_aset_content_fix env _ _ (mem_aset_content_fix env y _ hfix)
        · exact mem_aset_content_fix env y _ hfix
      | arr xs =>
        have hred : content_step env y sm
            = content_trunc env (aset y "content" (.str (env.jsonDumps (.arr xs))))
                (env.jsonDumps (.arr xs)) sm := by
          simp [content_step, hc, htr]
        rw [hred]
        unfold content_trunc
        split
        · exact mem_aset_content_fix env _ _ (mem_aset_content_fix env y _ hfix)
        · exact mem_aset_content_fix env y _ hfix
      | obj fs =>
        have hred : content_step env y sm
            = content_trunc env (aset y "content" (.str (env.jsonDumps (.obj fs))))
                (env.jsonDumps (.obj fs)) sm := by
          simp [content_step, hc, htr]
        rw [hred]
        unfold content_trunc
        split
        · exact mem_aset_content_fix env _ _ (mem_aset_content_fix env y _ hfix)
        · exact mem_aset_content_fix env y _ hfix
    · simpa [content_step, hc, htr] using hfix

/-- C6: the sanitization step of `parse_record` (per-attribute truncation
plus content serialization and truncation) is idempotent: applied a second
time to an already sanitized record, it returns the record unchanged and
does not touch the monitoring state. The hypothesis on the limit keeps the
slice index nonnegative, the regime in which the embedding matches Python
slicing. -/
theorem claim_C6_sanitization_idempotent (env : Env) (r : AList)
    (sm sm₂ : SelfMonitoring)
    (h11 : pyLen DYNATRACE_LOG_INGEST_CONTENT_MARK_TRIMMED ≤ env.content_length_limit) :
    sanitize_record env (sanitize_record env r sm).1 sm₂
      = ((sanitize_record env r sm).1, sm₂) := by
  have hfix : ∀ p ∈ (content_step env (sanitize_attributes env r) sm).1,
      sanitize_attr_entry env p = p :=
    content_step_entries_fix env _ sm (mem_sanitize_attributes_fix env r)
  have ha : sanitize_attributes env
      (content_step env (sanitize_attributes env r) sm).1
      = (content_step env (sanitize_attributes env r) sm).1 :=
    map_fixpoints _ _ hfix
  unfold sanitize_record
  rw [ha]
  exact content_step_stable env h11 (sanitize_attributes env r) sm sm₂

/-- Witness for C6 on the base environment and a record with one ordinary
attribute, a non-string content and a numeric field. -/
theorem claim_C6_sanitization_idempotent_witness :
    sanitize_record baseEnv
        (sanitize_record baseEnv
          [("host", JsonVal.str "h"), ("content", JsonVal.obj [("a", JsonVal.num 1)]),
           ("count", JsonVal.num 7)] sm0).1 sm0
      = ((sanitize_record baseEnv
          [("host", JsonVal.str "h"), ("content", JsonVal.obj [("a", JsonVal.num 1)]),
           ("count", JsonVal.num 7)] sm0).1, sm0) :=
  claim_C6_sanitization_idempotent baseEnv
    [("host", JsonVal.str "h"), ("content", JsonVal.obj [("a", JsonVal.num 1)]),
     ("count", JsonVal.num 7)] sm0 sm0 (by decide)

end LogsIngest
